import Mathlib

/-
Shallow embedding of the routing core of the Telegram <-> WhatsApp bridge
(index.js of the repository).  Strings are modeled as `List Char`; Telegram
user ids (JS `BigInt`, always produced from digit strings here) are modeled
as `Nat`, which is arbitrary precision.  JS-specific semantics that the code
relies on are modeled explicitly:
  * string truthiness: `""`/`undefined` are falsy, every other string truthy;
  * `BigInt` truthiness: `0n` is falsy;
  * `String.prototype.trim` (restricted to the ASCII whitespace occurring in
    the bridge's inputs), `split`, `indexOf(' ')`, one-shot `replace`,
    `startsWith`, `toLowerCase` (ASCII), `substring` by prefix length;
  * `BigInt(id)` conversion, restricted to the decimal digit strings the
    configuration format uses (on a non-numeric string it throws, which is
    modeled as a configuration error);
  * `parseInt`, restricted to decimal forms.
The `process.exit(1)` calls of configuration validation are modeled by
`Except ConfigError`; transport sends are modeled by an oracle
`sendOk : Nat → Bool` giving the per-destination outcome of one attempt.
-/

deriving instance DecidableEq for Except

namespace Bridge

/-- JS whitespace characters removed by `trim` (ASCII model). -/
def isWS (c : Char) : Bool := c == ' ' || c == '\t' || c == '\n' || c == '\r'

/-- `s.toLowerCase()` (ASCII model). -/
def lowerL (s : List Char) : List Char := s.map Char.toLower

/-- `s.trim()`: drop whitespace from both ends. -/
def trimL (s : List Char) : List Char :=
  ((s.dropWhile isWS).reverse.dropWhile isWS).reverse

/-- `s.startsWith(p)`. -/
def startsWithL (p s : List Char) : Bool := decide (s.take p.length = p)

/-- `s.split(sep)` for a one-character separator (JS: `"".split(c) = [""]`). -/
def splitOnChar (sep : Char) (s : List Char) : List (List Char) :=
  s.foldr
    (fun c acc =>
      if c = sep then [] :: acc
      else
        match acc with
        | [] => [[c]]
        | h :: t => (c :: h) :: t)
    [[]]

/-- `s.indexOf(' ')`, with `none` for `-1`. -/
def firstSpaceIdx : List Char → Option Nat
  | [] => none
  | c :: t => if c = ' ' then some 0 else (firstSpaceIdx t).map (· + 1)

/-- `s.replace(pat, repl)` — replaces the first occurrence only. -/
def replaceFirst (pat repl : List Char) : List Char → List Char
  | [] => if pat = [] then repl else []
  | c :: rest =>
    if startsWithL pat (c :: rest) then repl ++ (c :: rest).drop pat.length
    else c :: replaceFirst pat repl rest

/-- Value of an all-digit string (`BigInt(id)` for the decimal ids used here). -/
def digitsToNat (s : List Char) : Nat := s.foldl (fun a c => a * 10 + (c.toNat - 48)) 0

/-- Decimal rendering of a count, for the reply summaries. -/
def natChars (n : Nat) : List Char := (Nat.repr n).data

def allStr : List Char := "all".data

def placeholderStr : List Char := "000000000".data

/-- A value read from `FRIEND_TAG_MAP[k]`.  The map is a plain object
literal, so a property read falls back to the prototype chain: an own key
holds a `BigInt` id, while the lowercase-named `Object.prototype` members
(`constructor`, `__proto__`) are reachable for non-keys and are truthy
non-id objects. -/
inductive JsVal where
  | id (v : Nat)
  | inherited
deriving DecidableEq

/-- The `Object.prototype` property names that are entirely lowercase, hence
reachable from the lowercased selector tokens of lines 299/305/322. -/
def protoKeys : List (List Char) := ["constructor".data, "__proto__".data]

/-- Assigning `FRIEND_TAG_MAP['__proto__'] = someBigInt` goes through the
inherited `__proto__` setter and is a silent no-op for a non-object value,
so no own key is ever created under this name. -/
def protoSetterKey : List Char := "__proto__".data

/-- The distinct fatal startup failures (each a `process.exit(1)` site, or a
thrown `TypeError`/`SyntaxError` during module evaluation). -/
inductive ConfigError where
  | missingFriendIds
  | tagInIds
  | nonNumericId
  | badTagIdent
  | badApiId
  | missingApiHash
  | missingPhone
  | noFriendIds
  | badWaNumber
deriving DecidableEq

/-- Entries of `FRIEND_TELEGRAM_IDS` after
`.split(',').map(id => id.trim()).filter(id => id && id !== '000000000')`. -/
def idEntries (s : List Char) : List (List Char) :=
  ((splitOnChar ',' s).map trimL).filter (fun id => decide (id ≠ [] ∧ id ≠ placeholderStr))

/-- The `.map` over the filtered entries: exit on an entry containing `:`
(tags do not belong in the id list), exit on a non-digit entry, otherwise
`BigInt(id)`. -/
def parseEntries : List (List Char) → Except ConfigError (List Nat)
  | [] => .ok []
  | e :: es =>
    if ':' ∈ e then .error .tagInIds
    else if e.all Char.isDigit then
      match parseEntries es with
      | .ok rest => .ok (digitsToNat e :: rest)
      | .error err => .error err
    else .error .nonNumericId

/-- `FRIEND_TELEGRAM_IDS` parsing (index.js lines 48-80). -/
def parseFriendIds (s : List Char) : Except ConfigError (List Nat) :=
  parseEntries (idEntries s)

/-- One pass of `FRIEND_TAGS.split(',').forEach(...)` (index.js lines 87-96).
JS object assignment is modeled by consing onto association lists whose
lookups take the first (most recent) match, so a later duplicate tag wins.
`BigInt(id)` throws on a non-numeric id string, modeled as an error. -/
def parseTagPairs :
    List (List Char) → List (List Char × Nat) × List (Nat × List Char) →
    Except ConfigError (List (List Char × Nat) × List (Nat × List Char))
  | [], acc => .ok acc
  | pair :: rest, acc =>
    match (splitOnChar ':' pair).map trimL with
    | tag :: id :: _ =>
      if tag ≠ [] ∧ id ≠ [] then
        if id.all Char.isDigit then
          parseTagPairs rest
            ((if lowerL tag = protoSetterKey then acc.1
              else (lowerL tag, digitsToNat id) :: acc.1),
              (digitsToNat id, tag) :: acc.2)
        else .error .badTagIdent
      else parseTagPairs rest acc
    | _ => parseTagPairs rest acc

/-- `FRIEND_TAG_MAP` and `FRIEND_ID_TO_TAG` construction (guarded by
`if (FRIEND_TAGS)`, so the empty string builds empty maps). -/
def parseFriendTags (s : List Char) :
    Except ConfigError (List (List Char × Nat) × List (Nat × List Char)) :=
  if s = [] then .ok ([], []) else parseTagPairs (splitOnChar ',' s) ([], [])

/-- `FRIEND_TAG_MAP[t]` (first match wins, modeling the last JS assignment). -/
def lookupTag : List (List Char × Nat) → List Char → Option Nat
  | [], _ => none
  | (k, v) :: rest, t => if k = t then some v else lookupTag rest t

/-- `FRIEND_ID_TO_TAG[i.toString()]`; keys are decimal strings of ids in JS,
modeled by the `Nat` value itself (decimal rendering is injective). -/
def lookupIdTag : List (Nat × List Char) → Nat → Option (List Char)
  | [], _ => none
  | (k, v) :: rest, i => if k = i then some v else lookupIdTag rest i

/-- The property read `FRIEND_TAG_MAP[t]`: an own key first, then the
prototype chain (`constructor`/`__proto__` are inherited objects), then
`undefined` (`none`). -/
def tagMapGet (tagMap : List (List Char × Nat)) (t : List Char) : Option JsVal :=
  match lookupTag tagMap t with
  | some v => some (.id v)
  | none => if t ∈ protoKeys then some .inherited else none

/-- JS truthiness of a read value: a `BigInt` id is truthy iff nonzero
(`0n` is falsy); an inherited prototype object is truthy. -/
def valTruthy : JsVal → Bool
  | .id v => decide (v ≠ 0)
  | .inherited => true

/-- Truthiness of `FRIEND_TAG_MAP[t]` (`undefined` is falsy). -/
def tagTruthy (tagMap : List (List Char × Nat)) (t : List Char) : Bool :=
  match tagMapGet tagMap t with
  | some jv => valTruthy jv
  | none => false

/-- The environment surface consumed at startup.  `friendIds` is the value of
`FRIEND_TELEGRAM_IDS || FRIEND_TELEGRAM_ID` (`none` when both are absent or
empty, which makes `.split` throw). -/
structure RawConfig where
  telegramApiId : Option (List Char)
  telegramApiHash : Option (List Char)
  telegramPhone : Option (List Char)
  friendIds : Option (List Char)
  yourWaNumber : Option (List Char)
  messagePfxEnv : Option (List Char)
  friendTagsEnv : Option (List Char)

/-- `!x` for an env string: absent or empty. -/
def jsFalsyOpt : Option (List Char) → Bool
  | none => true
  | some s => decide (s = [])

/-- `x || d` for an env string. -/
def jsOrDefault (v : Option (List Char)) (d : List Char) : List Char :=
  match v with
  | some s => if s = [] then d else s
  | none => d

def digitsPfxVal (l : List Char) : Option Nat :=
  let ds := l.takeWhile Char.isDigit
  if ds = [] then none else some (digitsToNat ds)

/-- `parseInt` (decimal model): leading whitespace skipped, optional sign,
longest digit run; `none` models `NaN` (so also `parseInt(undefined)`). -/
def parseIntJs : Option (List Char) → Option Int
  | none => none
  | some s =>
    match s.dropWhile isWS with
    | '-' :: rest => (digitsPfxVal rest).map (fun n => -(n : Int))
    | '+' :: rest => (digitsPfxVal rest).map (fun n => (n : Int))
    | t => (digitsPfxVal t).map (fun n => (n : Int))

/-- `!TELEGRAM_API_ID || isNaN(TELEGRAM_API_ID)` where the value is
`parseInt(process.env.TELEGRAM_API_ID)` (`0` is falsy). -/
def apiIdInvalid (v : Option (List Char)) : Bool :=
  match parseIntJs v with
  | none => true
  | some n => decide (n = 0)

/-- The immutable registry the bridge routes with after a successful startup. -/
structure Registry where
  idsAll : List Nat
  tagToId : List (List Char × Nat)
  idToTag : List (Nat × List Char)
  msgPfx : List Char
  waNumber : List Char
deriving DecidableEq

def defaultPfx : List Char := "tg:".data

def waPlaceholder : List Char := "34000000000".data

/-- Startup configuration parsing and validation, in source order
(index.js lines 36-96 then 112-145; the filesystem check for the Telegram
session file is outside this model). -/
def loadConfig (raw : RawConfig) : Except ConfigError Registry :=
  match raw.friendIds with
  | none => .error .missingFriendIds
  | some idsStr =>
    match parseFriendIds idsStr with
    | .error e => .error e
    | .ok ids =>
      match parseFriendTags (jsOrDefault raw.friendTagsEnv []) with
      | .error e => .error e
      | .ok (mp, rv) =>
        if apiIdInvalid raw.telegramApiId then .error .badApiId
        else if jsFalsyOpt raw.telegramApiHash then .error .missingApiHash
        else if jsFalsyOpt raw.telegramPhone then .error .missingPhone
        else if ids = [] then .error .noFriendIds
        else
          match raw.yourWaNumber with
          | none => .error .badWaNumber
          | some wa =>
            if wa = [] ∨ wa = waPlaceholder then .error .badWaNumber
            else .ok ⟨ids, mp, rv, jsOrDefault raw.messagePfxEnv defaultPfx, wa⟩

/-- Outcome of the command-parsing phase of `handleWhatsAppMessage`
(index.js lines 272-313).  Each non-`command` constructor other than
`notACommand` corresponds to one early-return reply. -/
inductive ParseResult where
  | notACommand
  | emptyPayload
  | noMessageAfterTag
  | emptyMessage
  | command (targetTag : List Char) (payload : List Char)
deriving DecidableEq

/-- The `if (!messageToSend)` check (line 310) reached after the selector
branchwork, then the surviving command. -/
def finishParse (targetTag msg : List Char) : ParseResult :=
  if msg = [] then .emptyMessage else .command targetTag msg

/-- The `else if` branch (line 305): the whole remainder is `all` or a truthy
tag, so there is a selector but no message. -/
def bareTagCheck (tagMap : List (List Char × Nat)) (afterPfx : List Char) : ParseResult :=
  if lowerL afterPfx = allStr ∨ tagTruthy tagMap (lowerL afterPfx) = true then
    .noMessageAfterTag
  else finishParse allStr afterPfx

/-- The branch on `afterPrefix.indexOf(' ')` (lines 297-308): with a space at
a positive index the first word is promoted to the selector when it is `all`
or a truthy tag, otherwise the defaults stand; without one the whole
remainder is checked as a bare selector. -/
def parseAfterSpace (tagMap : List (List Char × Nat)) (afterPfx : List Char) :
    Option Nat → ParseResult
  | some i =>
    if 0 < i then
      if lowerL (afterPfx.take i) = allStr ∨ tagTruthy tagMap (lowerL (afterPfx.take i)) = true then
        finishParse (lowerL (afterPfx.take i)) (trimL (afterPfx.drop (i + 1)))
      else finishParse allStr afterPfx
    else bareTagCheck tagMap afterPfx
  | none => bareTagCheck tagMap afterPfx

/-- Selector/payload extraction from the trimmed remainder (lines 283-313);
`targetTag` starts as `all` and `messageToSend` as the whole remainder. -/
def parseAfter (tagMap : List (List Char × Nat)) (afterPfx : List Char) : ParseResult :=
  if afterPfx = [] then .emptyPayload
  else parseAfterSpace tagMap afterPfx (firstSpaceIdx afterPfx)

/-- The command parser: case-insensitive prefix gate (lines 272-277), then the
remainder is `body.substring(prefix.length).trim()` on the original-case body. -/
def parseCommand (pfx : List Char) (tagMap : List (List Char × Nat)) (body : List Char) :
    ParseResult :=
  if startsWithL (lowerL pfx) (lowerL body) = true then
    parseAfter tagMap (trimL (body.drop pfx.length))
  else .notACommand

def allFriendsDesc : List Char := "all friends".data

def friendDesc (t : List Char) : List Char := "friend \"".data ++ t ++ "\"".data

/-- Recipient resolution (lines 315-328): `all` maps to the whole parsed id
list (no deduplication), a truthy tag read to the singleton of the read
value (which for an inherited prototype member is a non-id object), anything
falsy to the unknown-tag reply (`none` here). -/
def resolveTargets (reg : Registry) (targetTag : List Char) : Option (List JsVal × List Char) :=
  if targetTag = allStr then some (reg.idsAll.map JsVal.id, allFriendsDesc)
  else
    match tagMapGet reg.tagToId targetTag with
    | some jv => if valTruthy jv = true then some ([jv], friendDesc targetTag) else none
    | none => none

/-- The send loop (lines 336-350): one attempt per target, isolated try/catch
per destination, two counters.  Returns (per-target outcomes in order,
successCount, errorCount). -/
def dispatchRun {α : Type} (sendOk : α → Bool) : List α → List Bool × Nat × Nat
  | [] => ([], 0, 0)
  | d :: rest =>
    let r := dispatchRun sendOk rest
    if sendOk d then (true :: r.1, r.2.1 + 1, r.2.2)
    else (false :: r.1, r.2.1, r.2.2 + 1)

/-- One send attempt per destination value: a proper id succeeds or fails
per the transport oracle; `telegramClient.sendMessage` on the inherited
non-id object is not a valid peer, so the attempt raises and is caught by
the per-destination handler (an error outcome). -/
def liftSendOk (sendOk : Nat → Bool) : JsVal → Bool
  | .id v => sendOk v
  | .inherited => false

def noMsgReply : List Char := "⚠️ No message provided after tag.".data

def emptyMsgReply : List Char := "⚠️ Message is empty.".data

def emptyHeader : List Char := "⚠️ Message is empty.\n\nUsage:\n   ".data

/-- First-occurrence deduplication, used to model JS object key order. -/
def dedupFirstOcc : List (List Char) → List (List Char)
  | [] => []
  | k :: rest => k :: dedupFirstOcc (rest.filter (fun x => decide (x ≠ k)))
termination_by l => l.length
decreasing_by
  simp only [List.length_cons]
  exact Nat.lt_succ_of_le (List.length_filter_le _ _)

/-- `Object.keys(FRIEND_TAG_MAP)`: first-assignment order; the model map is
built by consing, so keys are read off the reversed list. -/
def objKeys (m : List (List Char × Nat)) : List (List Char) :=
  dedupFirstOcc (m.reverse.map (fun p => p.1))

def commaSep : List Char := ", ".data

/-- The optional tag list appended to the usage reply (lines 284-286). -/
def tagHelp (tagMap : List (List Char × Nat)) : List Char :=
  if objKeys tagMap = [] then []
  else "\n   Tags: ".data ++ List.intercalate commaSep (objKeys tagMap) ++ ", all".data

def usageA : List Char := " Your message\n   ".data

def usageB : List Char := "all Your message\n   ".data

def usageC : List Char := "john Your message".data

/-- The empty-remainder usage reply (line 287). -/
def emptyUsageReply (pfx : List Char) (tagMap : List (List Char × Nat)) : List Char :=
  emptyHeader ++ (pfx ++ usageA ++ pfx ++ usageB ++ pfx ++ usageC ++ tagHelp tagMap)

/-- The unknown-tag reply (line 326). -/
def unknownTagReply (t : List Char) (tagMap : List (List Char × Nat)) : List Char :=
  "⚠️ Unknown tag: \"".data ++ t ++ "\"\nAvailable: ".data ++
    List.intercalate commaSep (objKeys tagMap) ++ ", all".data

/-- The success confirmation (lines 353-358). -/
def sentReply (targetTag : List Char) (s : Nat) : List Char :=
  "✅ Sent to ".data ++
    (if targetTag = allStr then natChars s ++ " friend(s)".data else targetTag) ++
    " on Telegram".data

/-- The failure confirmation (lines 359-361). -/
def failedReply (e : Nat) : List Char :=
  "⚠️ Failed to send to ".data ++ natChars e ++ " friend(s)".data

/-- An inbound WhatsApp message event as the handler sees it. -/
structure WAMessage where
  fromMe : Bool
  fromAddr : List Char
  body : List Char

/-- What one handler invocation did: replies sent back on WhatsApp (in order)
and Telegram send attempts (destination, text, in order). -/
structure HandlerOutcome where
  replies : List (List Char)
  sends : List (JsVal × List Char)
deriving DecidableEq

def cusSuffix : List Char := "@c.us".data

/-- The resolve-and-dispatch phase of a parsed command (lines 315-361): pick
the target list, run the send loop, emit the confirmation replies (success
summary when `successCount > 0`, failure summary when `errorCount > 0`). -/
def dispatchPhase (reg : Registry) (sendOk : Nat → Bool)
    (targetTag messageToSend : List Char) : HandlerOutcome :=
  match resolveTargets reg targetTag with
  | none => ⟨[unknownTagReply targetTag reg.tagToId], []⟩
  | some (targets, _desc) =>
    let r := dispatchRun (liftSendOk sendOk) targets
    ⟨(if 0 < r.2.1 then [sentReply targetTag r.2.1] else []) ++
        (if 0 < r.2.2 then [failedReply r.2.2] else []),
      targets.map (fun d => (d, messageToSend))⟩

/-- Reaction to the parse outcome: each error outcome is one reply and an
early return, a parsed command proceeds to resolution and dispatch. -/
def afterParse (reg : Registry) (sendOk : Nat → Bool) (pr : ParseResult) : HandlerOutcome :=
  match pr with
  | .notACommand => ⟨[], []⟩
  | .emptyPayload => ⟨[emptyUsageReply reg.msgPfx reg.tagToId], []⟩
  | .noMessageAfterTag => ⟨[noMsgReply], []⟩
  | .emptyMessage => ⟨[emptyMsgReply], []⟩
  | .command targetTag messageToSend => dispatchPhase reg sendOk targetTag messageToSend

/-- `handleWhatsAppMessage` (index.js lines 261-371): the owner gate, the
parser, the resolver, the dispatch loop and the confirmation replies.  The
outer try/catch only matters for transport exceptions, which the model's
pure transports never raise. -/
def handleWhatsAppMessage (reg : Registry) (sendOk : Nat → Bool) (m : WAMessage) :
    HandlerOutcome :=
  if m.fromMe = false ∧ replaceFirst cusSuffix [] m.fromAddr ≠ reg.waNumber then ⟨[], []⟩
  else afterParse reg sendOk (parseCommand reg.msgPfx reg.tagToId m.body)

/-- An inbound Telegram message: sender id (already a `BigInt` in the model's
sense), text (`[]` covers both a missing `text` and the empty string, which
are equally falsy), and the sender display fields. -/
structure TgMessage where
  senderId : Nat
  text : List Char
  firstName : List Char
  lastName : Option (List Char)

/-- A Telegram update event; `message` may be absent. -/
structure TgEvent where
  message : Option TgMessage

/-- `FRIEND_TELEGRAM_IDS.some(id => id === senderIdBigInt)` (line 420). -/
def isFriendCheck (ids : List Nat) (senderId : Nat) : Bool :=
  ids.any (fun id => id == senderId)

def tgHeader : List Char := "📨 TG | ".data

/-- Handling of one Telegram message (index.js lines 410-448): ignore
messages without text, filter by exact id membership, format the header,
send once to the owner's WhatsApp address.  Result is the single outbound
send `(destination, text)`, or `none` when nothing is sent. -/
def handleTelegramMessage (reg : Registry) (m : TgMessage) : Option (List Char × List Char) :=
  if m.text = [] then none
  else if isFriendCheck reg.idsAll m.senderId then
    let senderName :=
      m.firstName ++
        (match m.lastName with
         | some ln => if ln = [] then [] else ' ' :: ln
         | none => [])
    let header :=
      match lookupIdTag reg.idToTag m.senderId with
      | some tg => tgHeader ++ senderName ++ " (".data ++ tg ++ "):".data
      | none => tgHeader ++ senderName ++ ":".data
    some (reg.waNumber ++ cusSuffix, header ++ '\n' :: m.text)
  else none

/-- The Telegram → WhatsApp event handler (lines 401-453): events without a
message object are ignored, the rest go to `handleTelegramMessage`. -/
def handleTelegramEvent (reg : Registry) (ev : TgEvent) : Option (List Char × List Char) :=
  match ev.message with
  | none => none
  | some m => handleTelegramMessage reg m

/-! Helper lemmas about the string primitives. -/

theorem head_dropWhile (p : Char → Bool) :
    ∀ (l : List Char) (c : Char) (t : List Char), l.dropWhile p = c :: t → p c = false := by
  intro l
  induction l with
  | nil => intro c t h; simp [List.dropWhile] at h
  | cons a l ih =>
    intro c t h
    rw [List.dropWhile_cons] at h
    cases hp : p a with
    | true => exact ih c t (by simpa [hp] using h)
    | false =>
      simp [hp] at h
      rcases h with ⟨h1, _⟩
      subst h1
      exact hp

theorem dropWhile_sfx (p : Char → Bool) :
    ∀ l : List Char, ∃ m, m ++ l.dropWhile p = l := by
  intro l
  induction l with
  | nil => exact ⟨[], rfl⟩
  | cons a l ih =>
    cases hp : p a with
    | true =>
      obtain ⟨m, hm⟩ := ih
      exact ⟨a :: m, by simp [List.dropWhile_cons, hp, hm]⟩
    | false => exact ⟨[], by simp [List.dropWhile_cons, hp]⟩

theorem trimL_head (s : List Char) (c : Char) (t : List Char)
    (h : trimL s = c :: t) : isWS c = false := by
  unfold trimL at h
  obtain ⟨m, hm⟩ := dropWhile_sfx isWS ((s.dropWhile isWS).reverse)
  have hrev := congrArg List.reverse hm
  rw [List.reverse_append, List.reverse_reverse, h] at hrev
  have : s.dropWhile isWS = c :: (t ++ m.reverse) := by
    rw [← hrev]; simp
  exact head_dropWhile isWS s c (t ++ m.reverse) this

theorem firstSpaceIdx_some_zero :
    ∀ l : List Char, firstSpaceIdx l = some 0 → ∃ t, l = ' ' :: t := by
  intro l h
  cases l with
  | nil => simp [firstSpaceIdx] at h
  | cons c t =>
    by_cases hc : c = ' '
    · exact ⟨t, by rw [hc]⟩
    · rw [firstSpaceIdx, if_neg hc] at h
      cases hf : firstSpaceIdx t with
      | none => rw [hf] at h; simp at h
      | some n => rw [hf] at h; simp at h

theorem trim_firstSpace_pos (x : List Char) (i : Nat)
    (h : firstSpaceIdx (trimL x) = some i) : 0 < i := by
  cases i with
  | zero =>
    obtain ⟨t, ht⟩ := firstSpaceIdx_some_zero _ h
    have := trimL_head x ' ' t ht
    simp [isWS] at this
  | succ n => exact Nat.succ_pos n

/-! Helper lemmas about the dispatch loop. -/

theorem dispatchRun_len {α : Type} (f : α → Bool) (l : List α) :
    (dispatchRun f l).1.length = l.length := by
  induction l with
  | nil => rfl
  | cons d rest ih =>
    simp only [dispatchRun]
    cases hf : f d <;> simp [hf, ih]

theorem dispatchRun_get {α : Type} (f : α → Bool) (l : List α) :
    ∀ i : Nat, (dispatchRun f l).1[i]? = (l[i]?).map f := by
  induction l with
  | nil => intro i; rfl
  | cons d rest ih =>
    intro i
    simp only [dispatchRun]
    cases hf : f d <;> cases i <;> simp [hf, ih]

theorem dispatchRun_success {α : Type} (f : α → Bool) (l : List α) :
    (dispatchRun f l).2.1 = ((dispatchRun f l).1.filter (fun b => b)).length := by
  induction l with
  | nil => rfl
  | cons d rest ih =>
    simp only [dispatchRun]
    cases hf : f d <;> simp [hf, ih]

theorem dispatchRun_err {α : Type} (f : α → Bool) (l : List α) :
    (dispatchRun f l).2.2 = ((dispatchRun f l).1.filter (fun b => !b)).length := by
  induction l with
  | nil => rfl
  | cons d rest ih =>
    simp only [dispatchRun]
    cases hf : f d <;> simp [hf, ih]

theorem dispatchRun_total {α : Type} (f : α → Bool) (l : List α) :
    (dispatchRun f l).2.1 + (dispatchRun f l).2.2 = l.length := by
  induction l with
  | nil => rfl
  | cons d rest ih =>
    simp only [dispatchRun]
    cases hf : f d <;> simp [hf] <;> omega

/-! Helper lemmas about the parser's case structure. -/

theorem finishParse_ne_not (t msg : List Char) :
    finishParse t msg ≠ ParseResult.notACommand := by
  unfold finishParse; split <;> simp

theorem bareTagCheck_ne_not (tm : List (List Char × Nat)) (ap : List Char) :
    bareTagCheck tm ap ≠ ParseResult.notACommand := by
  unfold bareTagCheck; split
  · simp
  · exact finishParse_ne_not _ _

theorem parseAfterSpace_ne_not (tm : List (List Char × Nat)) (ap : List Char)
    (o : Option Nat) : parseAfterSpace tm ap o ≠ ParseResult.notACommand := by
  cases o with
  | none => exact bareTagCheck_ne_not _ _
  | some i =>
    unfold parseAfterSpace
    repeat' split
    all_goals first
      | exact finishParse_ne_not _ _
      | exact bareTagCheck_ne_not _ _

theorem parseAfter_ne_not (tm : List (List Char × Nat)) (ap : List Char) :
    parseAfter tm ap ≠ ParseResult.notACommand := by
  unfold parseAfter
  split
  · simp
  · exact parseAfterSpace_ne_not _ _ _

/-! Helper lemmas about configuration parsing. -/

theorem idEntries_mem (s : List Char) (e : List Char) (he : e ∈ idEntries s) :
    e ≠ [] ∧ e ≠ placeholderStr := by
  unfold idEntries at he
  have := List.mem_filter.mp he
  exact of_decide_eq_true this.2

theorem parseEntries_ok_inv :
    ∀ (es : List (List Char)) (ids : List Nat), parseEntries es = .ok ids →
      ∀ e ∈ es, ':' ∉ e ∧ e.all Char.isDigit = true := by
  intro es
  induction es with
  | nil => intro ids _ e he; simp at he
  | cons a es ih =>
    intro ids h e he
    unfold parseEntries at h
    by_cases hc : ':' ∈ a
    · rw [if_pos hc] at h; simp at h
    · rw [if_neg hc] at h
      by_cases hd : a.all Char.isDigit = true
      · rw [if_pos hd] at h
        cases hr : parseEntries es with
        | ok rest =>
          rcases List.mem_cons.mp he with he | he
          · subst he; exact ⟨hc, hd⟩
          · exact ih rest hr e he
        | error err => rw [hr] at h; simp at h
      · rw [if_neg hd] at h; simp at h

theorem parseEntries_ok_val :
    ∀ (es : List (List Char)) (ids : List Nat), parseEntries es = .ok ids →
      ∀ x ∈ ids, ∃ e, e ∈ es ∧ e.all Char.isDigit = true ∧ digitsToNat e = x := by
  intro es
  induction es with
  | nil =>
    intro ids h x hx
    unfold parseEntries at h
    simp at h
    subst h
    simp at hx
  | cons a es ih =>
    intro ids h x hx
    unfold parseEntries at h
    by_cases hc : ':' ∈ a
    · rw [if_pos hc] at h; simp at h
    · rw [if_neg hc] at h
      by_cases hd : a.all Char.isDigit = true
      · rw [if_pos hd] at h
        cases hr : parseEntries es with
        | ok rest =>
          rw [hr] at h
          simp at h
          subst h
          rcases List.mem_cons.mp hx with hx | hx
          · exact ⟨a, List.mem_cons_self a es, hd, hx.symm⟩
          · obtain ⟨e, he, hde, hve⟩ := ih rest hr x hx
            exact ⟨e, List.mem_cons_of_mem a he, hde, hve⟩
        | error err => rw [hr] at h; simp at h
      · rw [if_neg hd] at h; simp at h

/-- The invariant tying the tag map to the reverse map: both are extended in
lockstep, so every value reachable through `lookupTag` is a key of the
reverse map. -/
def TagInv (mp : List (List Char × Nat)) (rv : List (Nat × List Char)) : Prop :=
  ∀ t v, lookupTag mp t = some v → lookupIdTag rv v ≠ none

theorem TagInv_cons_rv (mp : List (List Char × Nat)) (rv : List (Nat × List Char))
    (n : Nat) (tg0 : List Char) (hinv : TagInv mp rv) : TagInv mp ((n, tg0) :: rv) := by
  intro t v hl
  have hold := hinv t v hl
  unfold lookupIdTag
  by_cases hvv : n = v
  · rw [if_pos hvv]; simp
  · rw [if_neg hvv]; exact hold

theorem TagInv_cons_both (mp : List (List Char × Nat)) (rv : List (Nat × List Char))
    (tag : List Char) (n : Nat) (tg0 : List Char) (hinv : TagInv mp rv) :
    TagInv ((tag, n) :: mp) ((n, tg0) :: rv) := by
  intro t v hl
  unfold lookupTag at hl
  by_cases ht : tag = t
  · rw [if_pos ht] at hl
    have hv : n = v := Option.some.inj hl
    unfold lookupIdTag
    rw [if_pos hv]
    simp
  · rw [if_neg ht] at hl
    exact TagInv_cons_rv mp rv n tg0 hinv t v hl

theorem parseTagPairs_inv :
    ∀ (ps : List (List Char)) (acc res : List (List Char × Nat) × List (Nat × List Char)),
      TagInv acc.1 acc.2 → parseTagPairs ps acc = .ok res → TagInv res.1 res.2 := by
  intro ps
  induction ps with
  | nil =>
    intro acc res hacc h
    unfold parseTagPairs at h
    simp at h
    subst h
    exact hacc
  | cons pair rest ih =>
    intro acc res hacc h
    unfold parseTagPairs at h
    split at h
    next tag id more hsp =>
      by_cases hne : tag ≠ [] ∧ id ≠ []
      · rw [if_pos hne] at h
        by_cases hd : id.all Char.isDigit = true
        · rw [if_pos hd] at h
          refine ih _ res ?_ h
          dsimp only
          by_cases hpk : lowerL tag = protoSetterKey
          · rw [if_pos hpk]
            exact TagInv_cons_rv acc.1 acc.2 (digitsToNat id) tag hacc
          · rw [if_neg hpk]
            exact TagInv_cons_both acc.1 acc.2 (lowerL tag) (digitsToNat id) tag hacc
        · rw [if_neg hd] at h; simp at h
      · rw [if_neg hne] at h; exact ih acc res hacc h
    next => exact ih acc res hacc h

theorem parseFriendTags_inv (s : List Char) (mp : List (List Char × Nat))
    (rv : List (Nat × List Char)) (h : parseFriendTags s = .ok (mp, rv)) :
    ∀ t v, lookupTag mp t = some v → lookupIdTag rv v ≠ none := by
  unfold parseFriendTags at h
  by_cases hs : s = []
  · rw [if_pos hs] at h
    simp at h
    intro t v hl
    rw [h.1] at hl
    simp [lookupTag] at hl
  · rw [if_neg hs] at h
    exact parseTagPairs_inv _ ([], []) (mp, rv) (fun t v hl => by simp [lookupTag] at hl) h

theorem loadConfig_ok_inv (raw : RawConfig) (reg : Registry)
    (h : loadConfig raw = .ok reg) :
    ∃ idsStr, raw.friendIds = some idsStr ∧
      parseFriendIds idsStr = .ok reg.idsAll ∧
      parseFriendTags (jsOrDefault raw.friendTagsEnv []) = .ok (reg.tagToId, reg.idToTag) ∧
      apiIdInvalid raw.telegramApiId = false ∧
      jsFalsyOpt raw.telegramApiHash = false ∧
      jsFalsyOpt raw.telegramPhone = false ∧
      reg.idsAll ≠ [] ∧
      ∃ wa, raw.yourWaNumber = some wa := by
  unfold loadConfig at h
  split at h
  next => simp at h
  next idsStr hfi =>
    split at h
    next e hpi => simp at h
    next ids hpi =>
      split at h
      next e hpt => simp at h
      next mp rv hpt =>
        split at h
        next h1 => simp at h
        next h1 =>
          split at h
          next h2 => simp at h
          next h2 =>
            split at h
            next h3 => simp at h
            next h3 =>
              split at h
              next h4 => simp at h
              next h4 =>
                split at h
                next hwa => simp at h
                next wa hwa =>
                  split at h
                  next h5 => simp at h
                  next h5 =>
                    have hreg : Registry.mk ids mp rv (jsOrDefault raw.messagePfxEnv defaultPfx) wa = reg :=
                      Except.ok.inj h
                    subst hreg
                    exact ⟨idsStr, hfi, hpi, hpt,
                      Bool.eq_false_iff.mpr h1, Bool.eq_false_iff.mpr h2,
                      Bool.eq_false_iff.mpr h3, h4, wa, hwa⟩

/-! Helper lemmas about the resolver and the replies. -/

theorem tagMapGet_own (tagMap : List (List Char × Nat)) (t : List Char) (v : Nat)
    (hv : lookupTag tagMap t = some v) : tagMapGet tagMap t = some (.id v) := by
  unfold tagMapGet
  rw [hv]

theorem tagMapGet_undef (tagMap : List (List Char × Nat)) (t : List Char)
    (hnk : lookupTag tagMap t = none) (hpk : ¬ t ∈ protoKeys) :
    tagMapGet tagMap t = none := by
  unfold tagMapGet
  rw [hnk, if_neg hpk]

theorem tagTruthy_of_get (tagMap : List (List Char × Nat)) (t : List Char) (jv : JsVal)
    (hget : tagMapGet tagMap t = some jv) : tagTruthy tagMap t = valTruthy jv := by
  unfold tagTruthy
  rw [hget]

theorem tagTruthy_undef (tagMap : List (List Char × Nat)) (t : List Char)
    (hget : tagMapGet tagMap t = none) : tagTruthy tagMap t = false := by
  unfold tagTruthy
  rw [hget]

theorem resolveTargets_nonempty (reg : Registry) (t : List Char) (ts : List JsVal)
    (d : List Char) (hids : reg.idsAll ≠ []) (h : resolveTargets reg t = some (ts, d)) :
    ts ≠ [] := by
  unfold resolveTargets at h
  split at h
  next =>
    have := Option.some.inj h
    have hts : reg.idsAll.map JsVal.id = ts := congrArg Prod.fst this
    rw [← hts]
    intro hc
    exact hids (List.map_eq_nil_iff.mp hc)
  next =>
    split at h
    next jv hl =>
      split at h
      next hv =>
        have hts : [jv] = ts := congrArg Prod.fst (Option.some.inj h)
        rw [← hts]
        simp
      next => simp at h
    next => simp at h

theorem usage_getElem3 (pfx : List Char) (tm : List (List Char × Nat)) :
    (emptyUsageReply pfx tm)[3]? = some 'M' := by
  unfold emptyUsageReply
  have h0 : (3 : Nat) < emptyHeader.length := by decide
  rw [List.getElem?_append_left h0]
  decide

theorem noMsgReply_ne_usage (pfx : List Char) (tm : List (List Char × Nat)) :
    noMsgReply ≠ emptyUsageReply pfx tm := by
  intro h
  have h3 := congrArg (fun l : List Char => l[3]?) h
  simp only [usage_getElem3] at h3
  have hn : noMsgReply[3]? = some 'N' := by decide
  rw [hn] at h3
  simp at h3

/-! Concrete fixtures used by witnesses and counterexamples. -/

def tmJohn : List (List Char × Nat) := [("john".data, 111)]

def regBig : Registry := ⟨[1152921504606846977], [], [], "tg:".data, "999".data⟩

def msgBig : TgMessage := ⟨1152921504606846977, "hi".data, "Ann".data, none⟩

def msgOther : TgMessage := ⟨1152921504606846976, "hi".data, "Ann".data, none⟩

def sC10 : List Char := "111, ,000000000,222".data

/-! The claims. -/

/-- C7: the dispatcher performs exactly one send attempt per destination, in
the given order; a failed destination does not affect the attempts on the
others (the outcome at every position is exactly the send oracle applied to
the destination at that position); the success and error counters are the
exact tallies of `true` and `false` outcomes and add up to the number of
destinations, so no outcome is dropped or double counted. -/
theorem c7_dispatch_isolated (sendOk : Nat → Bool) (targets : List Nat) :
    (dispatchRun sendOk targets).1.length = targets.length ∧
    (∀ i : Nat, (dispatchRun sendOk targets).1[i]? = (targets[i]?).map sendOk) ∧
    (dispatchRun sendOk targets).2.1 =
      ((dispatchRun sendOk targets).1.filter (fun b => b)).length ∧
    (dispatchRun sendOk targets).2.2 =
      ((dispatchRun sendOk targets).1.filter (fun b => !b)).length ∧
    (dispatchRun sendOk targets).2.1 + (dispatchRun sendOk targets).2.2 = targets.length :=
  ⟨dispatchRun_len sendOk targets, dispatchRun_get sendOk targets,
    dispatchRun_success sendOk targets, dispatchRun_err sendOk targets,
    dispatchRun_total sendOk targets⟩

/-- C8: the inbound filter forwards a text-bearing Telegram message if and
only if the sender id is exactly a member of `idsAll` (membership is decided
by equality on unbounded naturals, the model of `BigInt` equality), and a
message from a sender outside `idsAll` produces no outbound send at all. -/
theorem c8_inbound_filter (reg : Registry) (ev : TgEvent) :
    (∀ tm : TgMessage, ev.message = some tm → tm.text ≠ [] →
      (handleTelegramEvent reg ev ≠ none ↔ tm.senderId ∈ reg.idsAll)) ∧
    (∀ tm : TgMessage, ev.message = some tm → tm.senderId ∉ reg.idsAll →
      handleTelegramEvent reg ev = none) := by
  have hev : ∀ tm : TgMessage, ev.message = some tm →
      handleTelegramEvent reg ev = handleTelegramMessage reg tm := by
    intro tm hm
    unfold handleTelegramEvent
    rw [hm]
  have hmem : ∀ sid : Nat, isFriendCheck reg.idsAll sid = true ↔ sid ∈ reg.idsAll := by
    intro sid
    simp [isFriendCheck, List.any_eq_true]
  constructor
  · intro tm hm ht
    rw [hev tm hm]
    unfold handleTelegramMessage
    rw [if_neg ht]
    by_cases hf : isFriendCheck reg.idsAll tm.senderId = true
    · rw [if_pos hf]
      constructor
      · intro _; exact (hmem _).mp hf
      · intro _; simp
    · rw [if_neg hf]
      constructor
      · intro hn; exact absurd rfl hn
      · intro hin; exact absurd ((hmem _).mpr hin) hf
  · intro tm hm hnot
    rw [hev tm hm]
    unfold handleTelegramMessage
    by_cases ht : tm.text = []
    · rw [if_pos ht]
    · rw [if_neg ht, if_neg (fun hf => hnot ((hmem _).mp hf))]

/-- C8 witness: a 61-bit sender id in `idsAll` is forwarded, and the id one
less (equal on any truncated comparison that drops the low bits' precision,
different as an exact integer) is not. -/
theorem c8_witness :
    handleTelegramEvent regBig ⟨some msgBig⟩ ≠ none ∧
    handleTelegramEvent regBig ⟨some msgOther⟩ = none := by
  constructor
  · exact ((c8_inbound_filter regBig ⟨some msgBig⟩).1 msgBig rfl (by decide)).mpr (by decide)
  · exact (c8_inbound_filter regBig ⟨some msgOther⟩).2 msgOther rfl (by decide)

/-- C10: when `idsAll` is built from the configured comma-separated string,
entries that trim to the empty string or to the placeholder `000000000` are
silently dropped by the filter, and every identifier in a successfully
parsed `idsAll` comes from a surviving entry, i.e. one that is nonempty,
not the placeholder, and all digits. -/
theorem c10_placeholder_dropped (s : List Char) :
    (∀ e ∈ idEntries s, e ≠ [] ∧ e ≠ placeholderStr) ∧
    (∀ ids : List Nat, parseFriendIds s = Except.ok ids →
      ∀ x ∈ ids, ∃ e, e ∈ idEntries s ∧ e ≠ [] ∧ e ≠ placeholderStr ∧
        e.all Char.isDigit = true ∧ digitsToNat e = x) := by
  constructor
  · intro e he
    exact idEntries_mem s e he
  · intro ids h x hx
    obtain ⟨e, he, hd, hv⟩ := parseEntries_ok_val (idEntries s) ids h x hx
    obtain ⟨hne, hnp⟩ := idEntries_mem s e he
    exact ⟨e, he, hne, hnp, hd, hv⟩

/-- C10 witness: on the configured list `111, ,000000000,222` the surviving
entry `111` is nonempty and not the placeholder, and the parsed identifier
222 traces back to a surviving all-digit entry. -/
theorem c10_witness :
    ("111".data ≠ ([] : List Char) ∧ "111".data ≠ placeholderStr) ∧
    (∃ e, e ∈ idEntries sC10 ∧ e ≠ [] ∧ e ≠ placeholderStr ∧
      e.all Char.isDigit = true ∧ digitsToNat e = 222) := by
  constructor
  · exact (c10_placeholder_dropped sC10).1 ("111".data) (by decide)
  · exact (c10_placeholder_dropped sC10).2 [111, 222] (by decide) 222 (by decide)

/-- C4 counterexample: with no tags configured, `constructor` is not a key
of the tag map, yet `tg:constructor hi` does not keep the first word in the
payload: the property read on the object literal reaches the inherited,
truthy `Object.prototype.constructor`, so the parser promotes `constructor`
to the selector and strips it from the message — refuting the universal
claim as stated. -/
theorem c4_counterexample :
    lookupTag [] ("constructor".data) = none ∧
    parseCommand ("tg:".data) [] ("tg:constructor hi".data) =
      ParseResult.command ("constructor".data) ("hi".data) := by decide

/-- C4 (amended): when the remainder after the prefix is nonempty and its
first space-delimited token (lowercased) is neither `all`, nor a key of the
tag map, nor one of the lowercase inherited `Object.prototype` property
names (`constructor`, `__proto__`) that the object lookup finds truthy —
and likewise when the remainder contains no space and is itself none of
these — the parser keeps the default selector `all` and the payload is the
entire trimmed remainder, unmodified. -/
theorem c4_amended (pfx : List Char)
    (tagMap : List (List Char × Nat)) (body : List Char) :
    (∀ i : Nat, startsWithL (lowerL pfx) (lowerL body) = true →
      trimL (body.drop pfx.length) ≠ [] →
      firstSpaceIdx (trimL (body.drop pfx.length)) = some i →
      lowerL ((trimL (body.drop pfx.length)).take i) ≠ allStr →
      lookupTag tagMap (lowerL ((trimL (body.drop pfx.length)).take i)) = none →
      ¬ lowerL ((trimL (body.drop pfx.length)).take i) ∈ protoKeys →
      parseCommand pfx tagMap body = .command allStr (trimL (body.drop pfx.length))) ∧
    (startsWithL (lowerL pfx) (lowerL body) = true →
      trimL (body.drop pfx.length) ≠ [] →
      firstSpaceIdx (trimL (body.drop pfx.length)) = none →
      lowerL (trimL (body.drop pfx.length)) ≠ allStr →
      lookupTag tagMap (lowerL (trimL (body.drop pfx.length))) = none →
      ¬ lowerL (trimL (body.drop pfx.length)) ∈ protoKeys →
      parseCommand pfx tagMap body = .command allStr (trimL (body.drop pfx.length))) := by
  constructor
  · intro i hsw hne hsp hna hnk hpk
    unfold parseCommand
    rw [if_pos hsw]
    unfold parseAfter
    rw [if_neg hne, hsp]
    simp only [parseAfterSpace]
    rw [if_pos (trim_firstSpace_pos (body.drop pfx.length) i hsp)]
    rw [if_neg ?cond]
    case cond =>
      rintro (h | h)
      · exact hna h
      · rw [tagTruthy_undef _ _ (tagMapGet_undef _ _ hnk hpk)] at h
        cases h
    unfold finishParse
    rw [if_neg hne]
  · intro hsw hne hsp hna hnk hpk
    unfold parseCommand
    rw [if_pos hsw]
    unfold parseAfter
    rw [if_neg hne, hsp]
    simp only [parseAfterSpace]
    unfold bareTagCheck
    rw [if_neg ?cond2]
    case cond2 =>
      rintro (h | h)
      · exact hna h
      · rw [tagTruthy_undef _ _ (tagMapGet_undef _ _ hnk hpk)] at h
        cases h
    unfold finishParse
    rw [if_neg hne]

/-- C4 witness: with tag map `{john: 111}`, the unrecognized first word
`hello` of `tg: hello world` stays in the payload and the selector defaults
to `all`; the space-free unrecognized remainder `hi` of `tg: hi` likewise. -/
theorem c4_witness :
    parseCommand ("tg:".data) tmJohn ("tg: hello world".data) =
      ParseResult.command allStr ("hello world".data) ∧
    parseCommand ("tg:".data) tmJohn ("tg: hi".data) =
      ParseResult.command allStr ("hi".data) := by
  constructor
  · exact (c4_amended ("tg:".data) tmJohn ("tg: hello world".data)).1
      5 (by decide) (by decide) (by decide) (by decide) (by decide) (by decide)
  · exact (c4_amended ("tg:".data) tmJohn ("tg: hi".data)).2
      (by decide) (by decide) (by decide) (by decide) (by decide) (by decide)

/-- C6: a body that does not start (case-insensitively) with the configured
prefix parses to `notACommand` and the whole handler does nothing — no reply
and no send; and prefix matching is case-insensitive: two bodies that agree
after the prefix length and whose prefix portions agree up to case parse to
the identical result. -/
theorem c6_prefix_gate :
    (∀ (reg : Registry) (sendOk : Nat → Bool) (m : WAMessage),
      startsWithL (lowerL reg.msgPfx) (lowerL m.body) = false →
      parseCommand reg.msgPfx reg.tagToId m.body = .notACommand ∧
      handleWhatsAppMessage reg sendOk m = ⟨[], []⟩) ∧
    (∀ (pfx : List Char) (tagMap : List (List Char × Nat)) (b₁ b₂ : List Char),
      lowerL (b₁.take pfx.length) = lowerL (b₂.take pfx.length) →
      b₁.drop pfx.length = b₂.drop pfx.length →
      parseCommand pfx tagMap b₁ = parseCommand pfx tagMap b₂) := by
  constructor
  · intro reg sendOk m hsw
    have hpc : parseCommand reg.msgPfx reg.tagToId m.body = .notACommand := by
      unfold parseCommand
      rw [if_neg (by rw [hsw]; simp)]
    refine ⟨hpc, ?_⟩
    unfold handleWhatsAppMessage
    by_cases hg : m.fromMe = false ∧ replaceFirst cusSuffix [] m.fromAddr ≠ reg.waNumber
    · rw [if_pos hg]
    · rw [if_neg hg, hpc]; rfl
  · intro pfx tagMap b₁ b₂ hcase hrest
    have hlow : lowerL b₁ = lowerL b₂ := by
      unfold lowerL at hcase ⊢
      have e1 : b₁.take pfx.length ++ b₁.drop pfx.length = b₁ := List.take_append_drop _ _
      have e2 : b₂.take pfx.length ++ b₂.drop pfx.length = b₂ := List.take_append_drop _ _
      rw [← e1, ← e2, List.map_append, List.map_append, hcase, hrest]
    unfold parseCommand
    rw [hlow, hrest]

/-- C6 witness: `hello` is not a command and produces the empty outcome, and
`TG: hello` parses identically to `tg: hello`. -/
theorem c6_witness :
    (parseCommand ("tg:".data) tmJohn ("hello".data) = ParseResult.notACommand ∧
      handleWhatsAppMessage ⟨[111], tmJohn, [], "tg:".data, "999".data⟩ (fun _ => true)
        ⟨true, "999@c.us".data, "hello".data⟩ = ⟨[], []⟩) ∧
    parseCommand ("tg:".data) tmJohn ("TG: hello".data) =
      parseCommand ("tg:".data) tmJohn ("tg: hello".data) := by
  constructor
  · exact c6_prefix_gate.1 ⟨[111], tmJohn, [], "tg:".data, "999".data⟩ (fun _ => true)
      ⟨true, "999@c.us".data, "hello".data⟩ (by decide)
  · exact c6_prefix_gate.2 ("tg:".data) tmJohn ("TG: hello".data) ("tg: hello".data)
      (by decide) (by decide)

def regDup : Registry := ⟨[111, 111], [], [], "tg:".data, "999".data⟩

/-- C1 counterexample: the configured list `111,111` parses to `[111, 111]`
with no deduplication, and resolving `all` on the resulting registry yields
the identifier 111 twice — not exactly once as the claim states. -/
theorem c1_counterexample :
    parseFriendIds ("111,111".data) = Except.ok [111, 111] ∧
    (resolveTargets regDup allStr).elim 0 (fun p => p.1.count (JsVal.id 111)) = 2 := by decide

/-- C1 (amended): resolving the selector `all` returns exactly the parsed
configuration sequence `idsAll` — order and multiplicity preserved, with the
description `all friends` — and the dispatcher makes one attempt per entry
of that sequence, so an identifier duplicated in the configuration is
resolved and sent to once per occurrence rather than exactly once. -/
theorem c1_amended (reg : Registry) (sendOk : Nat → Bool) (x : Nat) :
    resolveTargets reg allStr = some (reg.idsAll.map JsVal.id, allFriendsDesc) ∧
    (dispatchRun sendOk reg.idsAll).1.length = reg.idsAll.length ∧
    (resolveTargets reg allStr).elim 0 (fun p => p.1.count (JsVal.id x)) =
      reg.idsAll.count x := by
  have h1 : resolveTargets reg allStr = some (reg.idsAll.map JsVal.id, allFriendsDesc) := by
    unfold resolveTargets
    rw [if_pos rfl]
  refine ⟨h1, dispatchRun_len sendOk reg.idsAll, ?_⟩
  rw [h1]
  show (reg.idsAll.map JsVal.id).count (JsVal.id x) = reg.idsAll.count x
  exact List.count_map_of_injective _ _ (fun a b hab => JsVal.id.inj hab) x

def regMix : Registry := ⟨[1, 2], [], [], "tg:".data, "999".data⟩

def msgMix : WAMessage := ⟨true, "999@c.us".data, "tg: hi".data⟩

/-- C2 counterexample: a recognized command dispatched to two destinations
where one send succeeds and the other fails produces two replies (a success
summary and a failure summary), not exactly one. -/
theorem c2_counterexample :
    startsWithL (lowerL regMix.msgPfx) (lowerL msgMix.body) = true ∧
    (handleWhatsAppMessage regMix (fun d => d == 1) msgMix).replies.length = 2 := by decide

/-- C2 (amended): every owner-issued message recognized as a bridge command
produces at least one and at most two replies on the originating transport —
never silence; it is two exactly in the mixed case where a dispatch has both
a delivered and a failed destination (one success summary plus one failure
summary). -/
theorem c2_amended (reg : Registry) (sendOk : Nat → Bool) (m : WAMessage)
    (hown : m.fromMe = true ∨ replaceFirst cusSuffix [] m.fromAddr = reg.waNumber)
    (hsw : startsWithL (lowerL reg.msgPfx) (lowerL m.body) = true)
    (hids : reg.idsAll ≠ []) :
    (1 ≤ (handleWhatsAppMessage reg sendOk m).replies.length ∧
      (handleWhatsAppMessage reg sendOk m).replies.length ≤ 2) ∧
    ((handleWhatsAppMessage reg sendOk m).replies.length = 2 ↔
      ∃ t p targets desc,
        parseCommand reg.msgPfx reg.tagToId m.body = .command t p ∧
        resolveTargets reg t = some (targets, desc) ∧
        0 < (dispatchRun (liftSendOk sendOk) targets).2.1 ∧
        0 < (dispatchRun (liftSendOk sendOk) targets).2.2) := by
  have hgate : ¬(m.fromMe = false ∧ replaceFirst cusSuffix [] m.fromAddr ≠ reg.waNumber) := by
    rcases hown with h | h
    · rintro ⟨h1, _⟩
      rw [h] at h1
      cases h1
    · rintro ⟨_, h2⟩
      exact h2 h
  unfold handleWhatsAppMessage
  rw [if_neg hgate]
  cases hp : parseCommand reg.msgPfx reg.tagToId m.body with
  | notACommand =>
    exfalso
    unfold parseCommand at hp
    rw [if_pos hsw] at hp
    exact parseAfter_ne_not _ _ hp
  | emptyPayload =>
    refine ⟨by simp [afterParse], ?_, ?_⟩
    · intro h2
      simp [afterParse] at h2
    · rintro ⟨t, p, targets, desc, hcmd, -⟩
      cases hcmd
  | noMessageAfterTag =>
    refine ⟨by simp [afterParse], ?_, ?_⟩
    · intro h2
      simp [afterParse] at h2
    · rintro ⟨t, p, targets, desc, hcmd, -⟩
      cases hcmd
  | emptyMessage =>
    refine ⟨by simp [afterParse], ?_, ?_⟩
    · intro h2
      simp [afterParse] at h2
    · rintro ⟨t, p, targets, desc, hcmd, -⟩
      cases hcmd
  | command t p =>
    simp only [afterParse]
    unfold dispatchPhase
    cases hr : resolveTargets reg t with
    | none =>
      refine ⟨by simp, ?_, ?_⟩
      · intro h2
        simp at h2
      · rintro ⟨t', p', targets, desc, hcmd, hres, -⟩
        obtain ⟨ht', -⟩ := ParseResult.command.inj hcmd
        rw [← ht'] at hres
        rw [hr] at hres
        cases hres
    | some pair =>
      obtain ⟨targets, desc⟩ := pair
      have hts : targets ≠ [] := resolveTargets_nonempty reg t targets desc hids hr
      have htot := dispatchRun_total (liftSendOk sendOk) targets
      simp only []
      by_cases hs : 0 < (dispatchRun (liftSendOk sendOk) targets).2.1 <;>
        by_cases he : 0 < (dispatchRun (liftSendOk sendOk) targets).2.2
      · refine ⟨by simp [hs, he], ?_, ?_⟩
        · intro _
          exact ⟨t, p, targets, desc, rfl, hr, hs, he⟩
        · intro _
          simp [hs, he]
      · refine ⟨by simp [hs, he], ?_, ?_⟩
        · intro h2
          simp [hs, he] at h2
        · rintro ⟨t', p', targets', desc', hcmd, hres, hs', he'⟩
          obtain ⟨ht', -⟩ := ParseResult.command.inj hcmd
          rw [← ht'] at hres
          rw [hr] at hres
          obtain ⟨htg, -⟩ := Prod.mk.inj (Option.some.inj hres)
          rw [← htg] at he'
          exact absurd he' he
      · refine ⟨by simp [hs, he], ?_, ?_⟩
        · intro h2
          simp [hs, he] at h2
        · rintro ⟨t', p', targets', desc', hcmd, hres, hs', he'⟩
          obtain ⟨ht', -⟩ := ParseResult.command.inj hcmd
          rw [← ht'] at hres
          rw [hr] at hres
          obtain ⟨htg, -⟩ := Prod.mk.inj (Option.some.inj hres)
          rw [← htg] at hs'
          exact absurd hs' hs
      · exfalso
        have h0 : targets.length = 0 := by omega
        exact hts (List.length_eq_zero.mp h0)

/-- C2 witness: a recognized command to two destinations with all sends
succeeding stays within the bounds, and the two-reply characterization is
instantiated at the same input. -/
theorem c2_witness :
    (1 ≤ (handleWhatsAppMessage regMix (fun _ => true) msgMix).replies.length ∧
      (handleWhatsAppMessage regMix (fun _ => true) msgMix).replies.length ≤ 2) ∧
    ((handleWhatsAppMessage regMix (fun _ => true) msgMix).replies.length = 2 ↔
      ∃ t p targets desc,
        parseCommand regMix.msgPfx regMix.tagToId msgMix.body = .command t p ∧
        resolveTargets regMix t = some (targets, desc) ∧
        0 < (dispatchRun (liftSendOk (fun _ => true)) targets).2.1 ∧
        0 < (dispatchRun (liftSendOk (fun _ => true)) targets).2.2) :=
  c2_amended regMix (fun _ => true) msgMix (Or.inl rfl) (by decide) (by decide)

def tmZero : List (List Char × Nat) := [("john".data, 0)]

/-- C5 counterexample: the tag configuration `john:0` builds a registry whose
tag map has the key `john` (value `0n`); the body `tg:john` then has a
trimmed remainder equal to that known tag with no trailing text, yet because
`0n` is falsy the parser does not produce the selector-with-empty-payload
error — it treats `john` as a plain payload addressed to `all`. -/
theorem c5_counterexample :
    parseFriendTags ("john:0".data) = Except.ok (tmZero, [(0, "john".data)]) ∧
    lookupTag tmZero ("john".data) = some 0 ∧
    parseCommand ("tg:".data) tmZero ("tg:john".data) =
      ParseResult.command allStr ("john".data) := by decide

/-- C5 (amended): when the trimmed remainder after the prefix contains no
space and (lowercased) equals `all` or a tag mapped to a nonzero identifier,
the parser returns the selector-with-empty-payload error: the handler sends
to zero destinations, replying `⚠️ No message provided after tag.`, a
diagnostic different from the empty-remainder usage reply. -/
theorem c5_amended (pfx : List Char) (tagMap : List (List Char × Nat)) (body : List Char)
    (hsw : startsWithL (lowerL pfx) (lowerL body) = true)
    (hne : trimL (body.drop pfx.length) ≠ [])
    (hns : firstSpaceIdx (trimL (body.drop pfx.length)) = none)
    (hsel : lowerL (trimL (body.drop pfx.length)) = allStr ∨
      ∃ v, lookupTag tagMap (lowerL (trimL (body.drop pfx.length))) = some v ∧ v ≠ 0) :
    parseCommand pfx tagMap body = .noMessageAfterTag ∧
    (∀ (reg : Registry) (sendOk : Nat → Bool) (m : WAMessage),
      reg.msgPfx = pfx → reg.tagToId = tagMap → m.body = body →
      (handleWhatsAppMessage reg sendOk m).replies ≠ [emptyUsageReply pfx tagMap] ∧
      (handleWhatsAppMessage reg sendOk m).sends = []) ∧
    noMsgReply ≠ emptyUsageReply pfx tagMap := by
  have hpc : parseCommand pfx tagMap body = .noMessageAfterTag := by
    unfold parseCommand
    rw [if_pos hsw]
    unfold parseAfter
    rw [if_neg hne, hns]
    simp only [parseAfterSpace]
    unfold bareTagCheck
    rw [if_pos ?cond]
    case cond =>
      rcases hsel with h | ⟨v, hv, hvne⟩
      · exact Or.inl h
      · refine Or.inr ?_
        rw [tagTruthy_of_get _ _ _ (tagMapGet_own _ _ _ hv)]
        simp [valTruthy, hvne]
  refine ⟨hpc, ?_, noMsgReply_ne_usage pfx tagMap⟩
  intro reg sendOk m h1 h2 h3
  unfold handleWhatsAppMessage
  by_cases hg : m.fromMe = false ∧ replaceFirst cusSuffix [] m.fromAddr ≠ reg.waNumber
  · rw [if_pos hg]
    constructor
    · intro hc
      cases hc
    · rfl
  · rw [if_neg hg, h1, h2, h3, hpc]
    constructor
    · intro hc
      have : noMsgReply = emptyUsageReply pfx tagMap := by
        have := List.cons.inj (hc : [noMsgReply] = [emptyUsageReply pfx tagMap])
        exact this.1
      exact noMsgReply_ne_usage pfx tagMap this
    · rfl

def regW5 : Registry := ⟨[111], tmJohn, [(111, "john".data)], "tg:".data, "999".data⟩

def msgW5 : WAMessage := ⟨true, "999@c.us".data, "tg:john".data⟩

/-- C5 witness: with tag map `{john: 111}`, the body `tg:john` hits the
selector-with-empty-payload error, zero destinations are contacted, and the
diagnostic differs from the empty-remainder usage reply. -/
theorem c5_witness :
    parseCommand ("tg:".data) tmJohn ("tg:john".data) = ParseResult.noMessageAfterTag ∧
    (handleWhatsAppMessage regW5 (fun _ => true) msgW5).sends = [] ∧
    noMsgReply ≠ emptyUsageReply ("tg:".data) tmJohn := by
  have h := c5_amended ("tg:".data) tmJohn ("tg:john".data) (by decide) (by decide)
    (by decide) (Or.inr ⟨111, by decide, by decide⟩)
  exact ⟨h.1, (h.2.1 regW5 (fun _ => true) msgW5 rfl rfl rfl).2, h.2.2⟩

def rawC3 : RawConfig :=
  ⟨some ("123".data), some ("h".data), some ("p".data), some ("111".data),
    some ("999".data), none, some ("mary:222".data)⟩

def regC3 : Registry :=
  ⟨[111], [("mary".data, 222)], [(222, "mary".data)], "tg:".data, "999".data⟩

/-- C3 counterexample: `FRIEND_TELEGRAM_IDS=111` with `FRIEND_TAGS=mary:222`
passes startup validation, yet the tag map value 222 does not appear in
`idsAll = [111]` — the two variables are parsed independently and nothing
enforces the claimed containment. -/
theorem c3_counterexample :
    loadConfig rawC3 = Except.ok regC3 ∧
    lookupTag regC3.tagToId ("mary".data) = some 222 ∧
    ¬ 222 ∈ regC3.idsAll := by decide

/-- C3 (amended): for every registry built by configuration loading, every
value reachable through the tag map is a key of the reverse map `idToTag`
(the two maps are extended in lockstep); membership in `idsAll` is not
guaranteed, since `idsAll` comes from a separate configuration variable. -/
theorem c3_amended (raw : RawConfig) (reg : Registry) (h : loadConfig raw = .ok reg) :
    ∀ t v, lookupTag reg.tagToId t = some v → lookupIdTag reg.idToTag v ≠ none := by
  obtain ⟨idsStr, hfi, hpi, hpt, h1, h2, h3, h4, wa, hwa⟩ := loadConfig_ok_inv raw reg h
  exact parseFriendTags_inv _ _ _ hpt

def rawC3w : RawConfig :=
  ⟨some ("123".data), some ("h".data), some ("p".data), some ("111".data),
    some ("999".data), none, some ("john:111".data)⟩

def regC3w : Registry :=
  ⟨[111], [("john".data, 111)], [(111, "john".data)], "tg:".data, "999".data⟩

/-- C3 witness: in the registry loaded from `FRIEND_TAGS=john:111`, the tag
map value 111 is a key of the reverse map. -/
theorem c3_witness : lookupIdTag regC3w.idToTag 111 ≠ none :=
  c3_amended rawC3w regC3w (by decide) ("john".data) 111 (by decide)

/-- C9: configuration loading fails (the process exits non-zero) whenever a
required key — Telegram api id, api hash, phone, the friend id list, or the
owner's WhatsApp number — is missing, and whenever a surviving entry of the
id list is non-numeric or contains the `:` delimiter reserved for
`tag:identifier` pairs; it never returns a registry in those situations. -/
theorem c9_fail_fast (raw : RawConfig) :
    ((raw.telegramApiId = none ∨ raw.telegramApiHash = none ∨
        raw.telegramPhone = none ∨ raw.friendIds = none ∨ raw.yourWaNumber = none) →
      ∃ err, loadConfig raw = .error err) ∧
    (∀ s e, raw.friendIds = some s → e ∈ idEntries s →
      (¬ e.all Char.isDigit = true ∨ ':' ∈ e) →
      ∃ err, loadConfig raw = .error err) := by
  constructor
  · intro hmiss
    cases hlc : loadConfig raw with
    | error e => exact ⟨e, rfl⟩
    | ok reg =>
      exfalso
      obtain ⟨idsStr, hfi, hpi, hpt, h1, h2, h3, h4, wa, hwa⟩ := loadConfig_ok_inv raw reg hlc
      rcases hmiss with h | h | h | h | h
      · rw [h] at h1
        simp [apiIdInvalid, parseIntJs] at h1
      · rw [h] at h2
        simp [jsFalsyOpt] at h2
      · rw [h] at h3
        simp [jsFalsyOpt] at h3
      · rw [h] at hfi
        cases hfi
      · rw [h] at hwa
        cases hwa
  · intro s e hfi' hmem hbad
    cases hlc : loadConfig raw with
    | error e2 => exact ⟨e2, rfl⟩
    | ok reg =>
      exfalso
      obtain ⟨idsStr, hfi, hpi, hpt, h1, h2, h3, h4, wa, hwa⟩ := loadConfig_ok_inv raw reg hlc
      rw [hfi] at hfi'
      have hse : idsStr = s := Option.some.inj hfi'
      subst hse
      unfold parseFriendIds at hpi
      have hinv := parseEntries_ok_inv (idEntries idsStr) reg.idsAll hpi e hmem
      rcases hbad with hb | hb
      · exact hb hinv.2
      · exact hinv.1 hb

def rawMiss : RawConfig :=
  ⟨none, some ("h".data), some ("p".data), some ("111".data), some ("999".data), none, none⟩

def rawColon : RawConfig :=
  ⟨some ("123".data), some ("h".data), some ("p".data), some ("john:111".data),
    some ("999".data), none, none⟩

/-- C9 witness: a missing Telegram api id is fatal, and so is an id-list
entry `john:111` containing the reserved `:` delimiter. -/
theorem c9_witness :
    (∃ err, loadConfig rawMiss = Except.error err) ∧
    (∃ err, loadConfig rawColon = Except.error err) := by
  constructor
  · exact (c9_fail_fast rawMiss).1 (Or.inl rfl)
  · exact (c9_fail_fast rawColon).2 ("john:111".data) ("john:111".data) rfl
      (by decide) (Or.inr (by decide))

end Bridge
